import Mathlib

/-!
# Snake Q-learning: a shallow embedding of the game engine and agent

This file embeds the core of the `hugodemugo` snake/Q-learning repository in
Lean 4 and proves properties of the embedded code.

* `SnakeGame` (from `snake_game.py`): the game state machine — `reset`,
  `step`, `check_collision`, `generate_food_position`, `get_score`.
* `Agent` (from `agent.py`): the Q-learning update (`Agent.update`), state
  keys (`Agent._get_state_str`), and Q-table loading (`Agent.load_qvalues`).
* `state_representations.py`: the three state-encoding strategies.

Modelling conventions:
* Python float coordinates are modelled as integers (`ℤ`).  Every coordinate
  the program manipulates is a whole number whenever the display dimensions
  are even (the board center is `DISPLAY_WIDTH / 2`, Python float division;
  the default configuration is 1000×1000 with block size 100, and all
  subsequent arithmetic adds or subtracts integers).
* Python's `random.randrange` draws are modelled as an explicit oracle: a
  list of pairs of naturals carried in the game state and consumed by each
  food generation.
* Q-values (Python floats) are modelled as exact rationals (`ℚ`).
-/

namespace Snake

/-- The configuration fields of `configs.SnakeConfig` used by the game engine
(defaults as in `configs.py`). -/
structure Cfg where
  BLOCK_SIZE : ℤ := 100
  DISPLAY_WIDTH : ℤ := 1000
  DISPLAY_HEIGHT : ℤ := 1000
  MAX_STEPS_SINCE_LAST_FRUIT : ℕ := 2000
deriving Repr, DecidableEq

/-- The four action strings of `SnakeConfig.ACTIONS`. -/
inductive Action where
  | left
  | right
  | up
  | down
deriving Repr, DecidableEq, Inhabited

/-- `SnakeGame._action_to_movement`: action string to `(dx, dy, direction)`,
with the direction codes of `SnakeConfig.DIRECTION_FROM_STRING`. -/
def action_to_movement (cfg : Cfg) : Action → ℤ × ℤ × ℕ
  | .left => (-cfg.BLOCK_SIZE, 0, 0)
  | .right => (cfg.BLOCK_SIZE, 0, 1)
  | .up => (0, -cfg.BLOCK_SIZE, 2)
  | .down => (0, cfg.BLOCK_SIZE, 3)

/-- `SnakeGame._check_collision`: wall check first (any coordinate outside
`[0, DISPLAY_WIDTH) × [0, DISPLAY_HEIGHT)` gives reason `"Screen"`), then a
membership test of the new head in `snake_set` (reason `"Tail"`). -/
def check_collision (cfg : Cfg) (x y : ℤ) (snake_set : Finset (ℤ × ℤ)) :
    Bool × Option String :=
  if cfg.DISPLAY_WIDTH ≤ x ∨ x < 0 ∨ cfg.DISPLAY_HEIGHT ≤ y ∨ y < 0 then
    (true, some "Screen")
  else if (x, y) ∈ snake_set then (true, some "Tail")
  else (false, none)

/-- Python's `round(r / 10.0)` for a natural number `r`: round to nearest,
ties to even.  (For `r < 2 ^ 53` the float `r / 10.0` is close enough to
`r / 10` that float rounding never changes the result: halves are exactly
representable and other values are more than `1/20` away from a tie.) -/
def roundTenth (r : ℕ) : ℕ :=
  if r % 10 < 5 then r / 10
  else if 5 < r % 10 then r / 10 + 1
  else if r / 10 % 2 = 0 then r / 10 else r / 10 + 1

/-- `SnakeGame._generate_food_position`, abstracted over the two
`random.randrange(0, DISPLAY_WIDTH - BLOCK_SIZE)` /
`random.randrange(0, DISPLAY_HEIGHT - BLOCK_SIZE)` draws `r`:
`round(r / 10.0) * 10.0` on each axis.  Note the hard-coded `10.0`,
independent of the configured `BLOCK_SIZE`. -/
def generate_food_position (r : ℕ × ℕ) : ℤ × ℤ :=
  ((roundTenth r.1 : ℤ) * 10, (roundTenth r.2 : ℤ) * 10)

/-- The mutable state of a `SnakeGame` instance, plus the oracle `rand` of
pending `randrange` draw pairs consumed by food generation. -/
structure GState where
  snake_x : ℤ
  snake_y : ℤ
  snake_list : List (ℤ × ℤ)
  snake_set : Finset (ℤ × ℤ)
  snake_length : ℕ
  current_direction : ℕ
  food_x : ℤ
  food_y : ℤ
  dead : Bool
  reason : Option String
  steps : ℕ
  steps_since_last_fruit : ℕ
  rand : List (ℕ × ℕ)
deriving DecidableEq

/-- Pop the next `randrange` draw pair from the oracle. -/
def popRand : List (ℕ × ℕ) → (ℕ × ℕ) × List (ℕ × ℕ)
  | [] => ((0, 0), [])
  | r :: rest => (r, rest)

/-- `SnakeGame.reset`: snake of length 1 at the board center, moving right,
with a freshly generated food and zeroed counters.  Python computes the
center with float division `DISPLAY_WIDTH / 2`; the integer division used
here agrees with it whenever the display dimensions are even (as in the
default 1000×1000 configuration). -/
def reset (cfg : Cfg) (rand : List (ℕ × ℕ)) : GState :=
  let sx : ℤ := cfg.DISPLAY_WIDTH / 2
  let sy : ℤ := cfg.DISPLAY_HEIGHT / 2
  let pr := popRand rand
  let f := generate_food_position pr.1
  { snake_x := sx
    snake_y := sy
    snake_list := [(sx, sy)]
    snake_set := {(sx, sy)}
    snake_length := 1
    current_direction := 1
    food_x := f.1
    food_y := f.2
    dead := false
    reason := none
    steps := 0
    steps_since_last_fruit := 0
    rand := pr.2 }

/-- `SnakeGame.step`, returning `(new state, reward, done)`.  The reward is
the Python float `-1.0` / `0.0` / `1.0`, modelled as an integer.  Mirrors the
source order: early return when already dead; increment both step counters;
starvation check; movement; collision check; move the snake (append the new
head to `snake_list` and `snake_set`); food check (eat: regenerate food, grow,
reset the starvation counter) else drop the tail when the list outgrew
`snake_length`. -/
def step (cfg : Cfg) (g : GState) (a : Action) : GState × ℤ × Bool :=
  if g.dead then (g, -1, true)
  else
    let g1 := { g with
      steps := g.steps + 1
      steps_since_last_fruit := g.steps_since_last_fruit + 1 }
    if cfg.MAX_STEPS_SINCE_LAST_FRUIT ≤ g1.steps_since_last_fruit then
      ({ g1 with dead := true, reason := some "Steps" }, -1, true)
    else
      let m := action_to_movement cfg a
      let new_x := g1.snake_x + m.1
      let new_y := g1.snake_y + m.2.1
      let c := check_collision cfg new_x new_y g1.snake_set
      if c.1 then ({ g1 with dead := true, reason := c.2 }, -1, true)
      else
        let g2 := { g1 with
          snake_x := new_x
          snake_y := new_y
          current_direction := m.2.2
          snake_list := g1.snake_list ++ [(new_x, new_y)]
          snake_set := insert (new_x, new_y) g1.snake_set }
        if new_x = g2.food_x ∧ new_y = g2.food_y then
          let pr := popRand g2.rand
          let f := generate_food_position pr.1
          ({ g2 with
              food_x := f.1
              food_y := f.2
              snake_length := g2.snake_length + 1
              steps_since_last_fruit := 0
              rand := pr.2 }, 1, false)
        else
          let g3 :=
            if g2.snake_length < g2.snake_list.length then
              { g2 with
                snake_set := g2.snake_set.erase (g2.snake_list.headD (0, 0))
                snake_list := g2.snake_list.tail }
            else g2
          (g3, 0, false)

/-- `SnakeGame.get_score`: snake length minus one. -/
def get_score (g : GState) : ℤ := (g.snake_length : ℤ) - 1

/-- The position the head would move to under action `a`. -/
def new_head (cfg : Cfg) (g : GState) (a : Action) : ℤ × ℤ :=
  let m := action_to_movement cfg a
  (g.snake_x + m.1, g.snake_y + m.2.1)

/-- The wall condition of `_check_collision` for position `p`. -/
def out_of_bounds (cfg : Cfg) (p : ℤ × ℤ) : Prop :=
  cfg.DISPLAY_WIDTH ≤ p.1 ∨ p.1 < 0 ∨ cfg.DISPLAY_HEIGHT ≤ p.2 ∨ p.2 < 0

instance (cfg : Cfg) (p : ℤ × ℤ) : Decidable (out_of_bounds cfg p) := by
  unfold out_of_bounds
  infer_instance

/-- Whether the step of `g` under `a` would find the food at the new head
(the eat test of `SnakeGame.step`). -/
def eats_food (cfg : Cfg) (g : GState) (a : Action) : Prop :=
  new_head cfg g a = (g.food_x, g.food_y)

instance (cfg : Cfg) (g : GState) (a : Action) : Decidable (eats_food cfg g a) := by
  unfold eats_food
  infer_instance

/-- Whether `_check_collision` reports a collision for the step of `g`
under `a`. -/
def collides (cfg : Cfg) (g : GState) (a : Action) : Prop :=
  (check_collision cfg (new_head cfg g a).1 (new_head cfg g a).2 g.snake_set).1 = true

instance (cfg : Cfg) (g : GState) (a : Action) : Decidable (collides cfg g a) := by
  unfold collides
  infer_instance

/-- Run a list of actions through `step`, threading only the state. -/
def run (cfg : Cfg) (g : GState) : List Action → GState
  | [] => g
  | a :: rest => run cfg (step cfg g a).1 rest

/-- The number of steps of the run that report reward `1` (food eaten). -/
def eatCount (cfg : Cfg) (g : GState) : List Action → ℕ
  | [] => 0
  | a :: rest =>
    (if (step cfg g a).2.1 = 1 then 1 else 0) + eatCount cfg (step cfg g a).1 rest

theorem step_of_dead (cfg : Cfg) (g : GState) (a : Action) (h : g.dead = true) :
    step cfg g a = (g, -1, true) := by
  simp [step, h]

theorem run_of_dead (cfg : Cfg) (g : GState) (as : List Action) (h : g.dead = true) :
    run cfg g as = g := by
  induction as with
  | nil => rfl
  | cons a rest ih => simp [run, step_of_dead cfg g a h, ih]

theorem run_append (cfg : Cfg) (g : GState) (p q : List Action) :
    run cfg g (p ++ q) = run cfg (run cfg g p) q := by
  induction p generalizing g with
  | nil => rfl
  | cons a rest ih => simp [run, ih]

theorem run_take_succ (cfg : Cfg) (g : GState) (as : List Action) (k : ℕ)
    (hk : k < as.length) :
    run cfg g (as.take (k + 1)) =
      (step cfg (run cfg g (as.take k)) (as.getD k .left)).1 := by
  have h1 : as.take (k + 1) = as.take k ++ [as.getD k .left] := by
    have h2 := List.take_concat_get as k hk
    rw [List.concat_eq_append] at h2
    have h3 : as.getD k .left = as[k] := by
      simp [List.getD, List.getElem?_eq_getElem hk]
    rw [h3, h2]
  rw [h1, run_append]
  rfl

/-- Branch lemma for `step`: starvation.  When the incremented counter
reaches the threshold the game dies with reason `"Steps"` before any
movement. -/
theorem step_starve (cfg : Cfg) (g : GState) (a : Action) (hd : g.dead = false)
    (hs : cfg.MAX_STEPS_SINCE_LAST_FRUIT ≤ g.steps_since_last_fruit + 1) :
    step cfg g a =
      ({ g with
          steps := g.steps + 1
          steps_since_last_fruit := g.steps_since_last_fruit + 1
          dead := true
          reason := some "Steps" }, -1, true) := by
  simp only [step, hd, Bool.false_eq_true, if_false]
  rw [if_pos hs]

/-- Branch lemma for `step`: collision.  When the starvation threshold is not
reached and `_check_collision` reports a collision, the game dies with the
reason `_check_collision` returned. -/
theorem step_collide (cfg : Cfg) (g : GState) (a : Action) (hd : g.dead = false)
    (hs : g.steps_since_last_fruit + 1 < cfg.MAX_STEPS_SINCE_LAST_FRUIT)
    (hc : collides cfg g a) :
    step cfg g a =
      ({ g with
          steps := g.steps + 1
          steps_since_last_fruit := g.steps_since_last_fruit + 1
          dead := true
          reason := (check_collision cfg (new_head cfg g a).1 (new_head cfg g a).2
            g.snake_set).2 }, -1, true) := by
  unfold collides new_head at hc
  simp only [step, hd, Bool.false_eq_true, if_false]
  rw [if_neg (not_le_of_lt hs), if_pos hc]
  simp [new_head]

/-- Branch lemma for `step`: eating.  The snake survives the move, the new
head equals the food, so the food is regenerated from the oracle, the length
grows and the starvation counter resets. -/
theorem step_eat (cfg : Cfg) (g : GState) (a : Action) (hd : g.dead = false)
    (hs : g.steps_since_last_fruit + 1 < cfg.MAX_STEPS_SINCE_LAST_FRUIT)
    (hc : ¬ collides cfg g a) (he : eats_food cfg g a) :
    step cfg g a =
      ({ g with
          snake_x := (new_head cfg g a).1
          snake_y := (new_head cfg g a).2
          current_direction := (action_to_movement cfg a).2.2
          snake_list := g.snake_list ++ [new_head cfg g a]
          snake_set := insert (new_head cfg g a) g.snake_set
          food_x := (generate_food_position (popRand g.rand).1).1
          food_y := (generate_food_position (popRand g.rand).1).2
          snake_length := g.snake_length + 1
          steps := g.steps + 1
          steps_since_last_fruit := 0
          rand := (popRand g.rand).2 }, 1, false) := by
  unfold collides at hc
  unfold eats_food at he
  unfold new_head at hc he ⊢
  simp only [step, hd, Bool.false_eq_true, if_false]
  rw [if_neg (not_le_of_lt hs), if_neg (by simpa using hc), if_pos (by
    exact ⟨congrArg Prod.fst he, congrArg Prod.snd he⟩)]

/-- Branch lemma for `step`: an ordinary move.  The snake survives, does not
eat, appends the new head, and drops its old tail cell whenever the list has
outgrown `snake_length`. -/
theorem step_move (cfg : Cfg) (g : GState) (a : Action) (hd : g.dead = false)
    (hs : g.steps_since_last_fruit + 1 < cfg.MAX_STEPS_SINCE_LAST_FRUIT)
    (hc : ¬ collides cfg g a) (he : ¬ eats_food cfg g a) :
    step cfg g a =
      ((if g.snake_length < g.snake_list.length + 1 then
          { g with
            snake_x := (new_head cfg g a).1
            snake_y := (new_head cfg g a).2
            current_direction := (action_to_movement cfg a).2.2
            snake_list := (g.snake_list ++ [new_head cfg g a]).tail
            snake_set := (insert (new_head cfg g a) g.snake_set).erase
              ((g.snake_list ++ [new_head cfg g a]).headD (0, 0))
            steps := g.steps + 1
            steps_since_last_fruit := g.steps_since_last_fruit + 1 }
        else
          { g with
            snake_x := (new_head cfg g a).1
            snake_y := (new_head cfg g a).2
            current_direction := (action_to_movement cfg a).2.2
            snake_list := g.snake_list ++ [new_head cfg g a]
            snake_set := insert (new_head cfg g a) g.snake_set
            steps := g.steps + 1
            steps_since_last_fruit := g.steps_since_last_fruit + 1 }), 0, false) := by
  unfold collides at hc
  unfold eats_food at he
  unfold new_head at hc he ⊢
  simp only [step, hd, Bool.false_eq_true, if_false]
  rw [if_neg (not_le_of_lt hs), if_neg (by simpa using hc), if_neg (by
    intro hcon
    exact he (Prod.ext hcon.1 hcon.2))]
  simp [List.length_append]

/-- Once the run has died, it stays dead (the dead early-return of `step`
returns the state unchanged), so a run whose final state is alive was alive
at every prefix. -/
theorem run_alive_of_prefix (cfg : Cfg) (g : GState) (as : List Action)
    (h : (run cfg g as).dead = false) (k : ℕ) :
    (run cfg g (as.take k)).dead = false := by
  by_contra hcon
  have hd : (run cfg g (as.take k)).dead = true := by
    cases hdead : (run cfg g (as.take k)).dead with
    | false => exact absurd hdead hcon
    | true => rfl
  have : run cfg g as = run cfg g (as.take k) := by
    conv_lhs => rw [← List.take_append_drop k as]
    rw [run_append, run_of_dead _ _ _ hd]
  rw [this] at h
  rw [h] at hd
  exact Bool.false_ne_true hd

theorem check_collision_screen (cfg : Cfg) (x y : ℤ) (s : Finset (ℤ × ℤ))
    (h : out_of_bounds cfg (x, y)) :
    check_collision cfg x y s = (true, some "Screen") := by
  have h' : cfg.DISPLAY_WIDTH ≤ x ∨ x < 0 ∨ cfg.DISPLAY_HEIGHT ≤ y ∨ y < 0 := by
    simpa [out_of_bounds] using h
  unfold check_collision
  rw [if_pos h']

theorem check_collision_tail (cfg : Cfg) (x y : ℤ) (s : Finset (ℤ × ℤ))
    (h1 : ¬ out_of_bounds cfg (x, y)) (h2 : (x, y) ∈ s) :
    check_collision cfg x y s = (true, some "Tail") := by
  have h1' : ¬ (cfg.DISPLAY_WIDTH ≤ x ∨ x < 0 ∨ cfg.DISPLAY_HEIGHT ≤ y ∨ y < 0) := by
    simpa [out_of_bounds] using h1
  unfold check_collision
  rw [if_neg h1', if_pos h2]

theorem check_collision_none (cfg : Cfg) (x y : ℤ) (s : Finset (ℤ × ℤ))
    (h1 : ¬ out_of_bounds cfg (x, y)) (h2 : (x, y) ∉ s) :
    check_collision cfg x y s = (false, none) := by
  have h1' : ¬ (cfg.DISPLAY_WIDTH ≤ x ∨ x < 0 ∨ cfg.DISPLAY_HEIGHT ≤ y ∨ y < 0) := by
    simpa [out_of_bounds] using h1
  unfold check_collision
  rw [if_neg h1', if_neg h2]

theorem collides_of_oob (cfg : Cfg) (g : GState) (a : Action)
    (h : out_of_bounds cfg (new_head cfg g a)) : collides cfg g a := by
  unfold collides
  rw [check_collision_screen cfg _ _ _ (by simpa using h)]

theorem collides_of_mem (cfg : Cfg) (g : GState) (a : Action)
    (h : new_head cfg g a ∈ g.snake_set) : collides cfg g a := by
  unfold collides
  by_cases hoob : out_of_bounds cfg (new_head cfg g a)
  · rw [check_collision_screen cfg _ _ _ (by simpa using hoob)]
  · rw [check_collision_tail cfg _ _ _ (by simpa using hoob) (by simpa using h)]

theorem not_collides (cfg : Cfg) (g : GState) (a : Action)
    (h1 : ¬ out_of_bounds cfg (new_head cfg g a))
    (h2 : new_head cfg g a ∉ g.snake_set) : ¬ collides cfg g a := by
  unfold collides
  rw [check_collision_none cfg _ _ _ (by simpa using h1) (by simpa using h2)]
  simp

/-- The reason `_check_collision` attaches to a collision is `"Screen"` for an
out-of-bounds head and `"Tail"` for a head inside `snake_set`. -/
theorem collision_reason (cfg : Cfg) (g : GState) (a : Action) :
    (out_of_bounds cfg (new_head cfg g a) →
      (check_collision cfg (new_head cfg g a).1 (new_head cfg g a).2
        g.snake_set).2 = some "Screen") ∧
    (¬ out_of_bounds cfg (new_head cfg g a) → new_head cfg g a ∈ g.snake_set →
      (check_collision cfg (new_head cfg g a).1 (new_head cfg g a).2
        g.snake_set).2 = some "Tail") := by
  constructor
  · intro h
    rw [check_collision_screen cfg _ _ _ (by simpa using h)]
  · intro h1 h2
    rw [check_collision_tail cfg _ _ _ (by simpa using h1) (by simpa using h2)]

/-- C10: on the step at which starvation termination triggers, `SnakeGame.step`
returns before computing any movement: the body sequence and membership set,
head coordinates, food position, direction and snake length are unchanged,
the two step counters are incremented, and the game is marked dead with
reason `"Steps"`. -/
theorem starvation_step_preserves_board (cfg : Cfg) (g : GState) (a : Action)
    (hd : g.dead = false)
    (hs : cfg.MAX_STEPS_SINCE_LAST_FRUIT ≤ g.steps_since_last_fruit + 1) :
    (step cfg g a).1.snake_list = g.snake_list ∧
    (step cfg g a).1.snake_set = g.snake_set ∧
    (step cfg g a).1.snake_x = g.snake_x ∧
    (step cfg g a).1.snake_y = g.snake_y ∧
    (step cfg g a).1.food_x = g.food_x ∧
    (step cfg g a).1.food_y = g.food_y ∧
    (step cfg g a).1.current_direction = g.current_direction ∧
    (step cfg g a).1.snake_length = g.snake_length ∧
    (step cfg g a).1.rand = g.rand ∧
    (step cfg g a).1.steps = g.steps + 1 ∧
    (step cfg g a).1.steps_since_last_fruit = g.steps_since_last_fruit + 1 ∧
    (step cfg g a).1.dead = true ∧
    (step cfg g a).1.reason = some "Steps" := by
  rw [step_starve cfg g a hd hs]
  simp

/-- The default configuration of `configs.py`. -/
def cfgDefault : Cfg := {}

/-- A configuration whose starvation threshold is 1: the very first step
starves. -/
def cfgStarve : Cfg := { MAX_STEPS_SINCE_LAST_FRUIT := 1 }

/-- Witness for `starvation_step_preserves_board`: with a threshold of 1, the
first step after reset triggers starvation and leaves the board untouched. -/
theorem starvation_step_preserves_board_witness :
    (reset cfgStarve []).dead = false ∧
    cfgStarve.MAX_STEPS_SINCE_LAST_FRUIT ≤
      (reset cfgStarve []).steps_since_last_fruit + 1 ∧
    (step cfgStarve (reset cfgStarve []) Action.left).1.snake_list =
      (reset cfgStarve []).snake_list ∧
    (step cfgStarve (reset cfgStarve []) Action.left).1.reason = some "Steps" :=
  ⟨by decide, by decide,
    (starvation_step_preserves_board cfgStarve (reset cfgStarve []) Action.left
      (by decide) (by decide)).1,
    (starvation_step_preserves_board cfgStarve (reset cfgStarve []) Action.left
      (by decide) (by decide)).2.2.2.2.2.2.2.2.2.2.2.2⟩

/-- The state one step after reset in the default configuration, where the
first oracle draw places the food at `(600, 500)` and the snake eats it by
moving right: a snake of length 2 occupying `(500, 500)` (tail) and
`(600, 500)` (head). -/
def gBeforeTail : GState :=
  run cfgDefault (reset cfgDefault [(600, 500), (0, 0)]) [Action.right]

/-- C2 counterexample: from `gBeforeTail`, moving left is a non-eating step
whose new head is exactly the cell currently occupied by the tail (which a
non-eating move would vacate, since the list has outgrown `snake_length`);
the claim says such a move does not terminate the game, but the code's
`_check_collision` tests the full `snake_set` including the tail and kills
the snake with reason `"Tail"`. -/
theorem tail_cell_move_terminates :
    gBeforeTail.dead = false ∧
    gBeforeTail.snake_list.headD (0, 0) = (500, 500) ∧
    new_head cfgDefault gBeforeTail Action.left = (500, 500) ∧
    ¬ eats_food cfgDefault gBeforeTail Action.left ∧
    (step cfgDefault gBeforeTail Action.left).1.dead = true ∧
    (step cfgDefault gBeforeTail Action.left).1.reason = some "Tail" := by
  decide

/-- C2 (amended): `SnakeGame.step` checks collisions in the fixed order
wall, then self-collision, then food — but the self-collision test is against
the full current body `snake_set` *including* the about-to-be-vacated tail
cell, so moving the head into the tail cell terminates the game with reason
`"Tail"`; the food-equality check only applies to surviving moves. -/
theorem collision_check_order (cfg : Cfg) (g : GState) (a : Action)
    (hd : g.dead = false)
    (hs : g.steps_since_last_fruit + 1 < cfg.MAX_STEPS_SINCE_LAST_FRUIT) :
    (out_of_bounds cfg (new_head cfg g a) →
      (step cfg g a).1.dead = true ∧
      (step cfg g a).1.reason = some "Screen") ∧
    (¬ out_of_bounds cfg (new_head cfg g a) →
      new_head cfg g a ∈ g.snake_set →
      (step cfg g a).1.dead = true ∧
      (step cfg g a).1.reason = some "Tail") ∧
    (¬ out_of_bounds cfg (new_head cfg g a) →
      new_head cfg g a ∉ g.snake_set →
      (step cfg g a).1.dead = false ∧
      ((step cfg g a).2.1 = 1 ↔ eats_food cfg g a)) := by
  refine ⟨?_, ?_, ?_⟩
  · intro hoob
    rw [step_collide cfg g a hd hs (collides_of_oob cfg g a hoob)]
    have hr := check_collision_screen cfg (new_head cfg g a).1 (new_head cfg g a).2
      g.snake_set (by simpa using hoob)
    simp [hr]
  · intro hoob hmem
    rw [step_collide cfg g a hd hs (collides_of_mem cfg g a hmem)]
    have hr := check_collision_tail cfg (new_head cfg g a).1 (new_head cfg g a).2
      g.snake_set (by simpa using hoob) (by simpa using hmem)
    simp [hr]
  · intro hoob hmem
    have hnc := not_collides cfg g a hoob hmem
    by_cases he : eats_food cfg g a
    · rw [step_eat cfg g a hd hs hnc he]
      simp [he, hd]
    · rw [step_move cfg g a hd hs hnc he]
      constructor
      · by_cases hl : g.snake_length < g.snake_list.length + 1 <;> simp [hl, hd]
      · simp [he]

/-- Witness for `collision_check_order`: from `gBeforeTail`, moving left hits
the tail cell (reason `"Tail"`), moving right again is a surviving non-eating
move, and from the pre-wall state below a left move goes out of bounds
(reason `"Screen"`). -/
theorem collision_check_order_witness :
    gBeforeTail.dead = false ∧
    gBeforeTail.steps_since_last_fruit + 1 <
      cfgDefault.MAX_STEPS_SINCE_LAST_FRUIT ∧
    ¬ out_of_bounds cfgDefault (new_head cfgDefault gBeforeTail Action.left) ∧
    new_head cfgDefault gBeforeTail Action.left ∈ gBeforeTail.snake_set ∧
    ((step cfgDefault gBeforeTail Action.left).1.dead = true ∧
      (step cfgDefault gBeforeTail Action.left).1.reason = some "Tail") :=
  ⟨by decide, by decide, by decide, by decide,
    (collision_check_order cfgDefault gBeforeTail Action.left (by decide)
      (by decide)).2.1 (by decide) (by decide)⟩

/-- A state five left-moves after reset in the default configuration (food at
`(0, 0)`, never on the path): the head sits at `(0, 500)` and one more left
move is out of bounds. -/
def gBeforeWall : GState :=
  run cfgDefault (reset cfgDefault [(0, 0)]) (List.replicate 5 Action.left)

/-- C3 counterexample: running into the left wall terminates the game, but the
recorded reason is `"Screen"`, not `"Wall"` as the claim states. -/
theorem wall_reason_is_screen :
    gBeforeWall.dead = false ∧
    out_of_bounds cfgDefault (new_head cfgDefault gBeforeWall Action.left) ∧
    (step cfgDefault gBeforeWall Action.left).1.dead = true ∧
    (step cfgDefault gBeforeWall Action.left).1.reason ≠ some "Wall" ∧
    (step cfgDefault gBeforeWall Action.left).1.reason = some "Screen" := by
  decide

/-- The reason field is `none` or one of the three strings the code can ever
assign. -/
def reasonOK (g : GState) : Prop :=
  g.reason = none ∨ g.reason = some "Screen" ∨ g.reason = some "Tail" ∨
    g.reason = some "Steps"

theorem reasonOK_step (cfg : Cfg) (g : GState) (a : Action) (h : reasonOK g) :
    reasonOK (step cfg g a).1 := by
  by_cases hd : g.dead = true
  · rw [step_of_dead cfg g a hd]
    exact h
  · have hd' : g.dead = false := by simpa using hd
    by_cases hs : cfg.MAX_STEPS_SINCE_LAST_FRUIT ≤ g.steps_since_last_fruit + 1
    · rw [step_starve cfg g a hd' hs]
      right; right; right; rfl
    · have hs' : g.steps_since_last_fruit + 1 < cfg.MAX_STEPS_SINCE_LAST_FRUIT :=
        lt_of_not_le hs
      by_cases hc : collides cfg g a
      · rw [step_collide cfg g a hd' hs' hc]
        by_cases hoob : out_of_bounds cfg (new_head cfg g a)
        · rw [check_collision_screen cfg _ _ _ (by simpa using hoob)]
          right; left; rfl
        · have hmem : new_head cfg g a ∈ g.snake_set := by
            by_contra hmem
            exact not_collides cfg g a hoob hmem hc
          rw [check_collision_tail cfg _ _ _ (by simpa using hoob)
            (by simpa using hmem)]
          right; right; left; rfl
      · by_cases he : eats_food cfg g a
        · rw [step_eat cfg g a hd' hs' hc he]
          exact h
        · rw [step_move cfg g a hd' hs' hc he]
          by_cases hl : g.snake_length < g.snake_list.length + 1 <;>
            simpa [reasonOK, hl] using h

theorem reasonOK_run (cfg : Cfg) (g : GState) (as : List Action)
    (h : reasonOK g) : reasonOK (run cfg g as) := by
  induction as generalizing g with
  | nil => exact h
  | cons a rest ih => exact ih (step cfg g a).1 (reasonOK_step cfg g a h)

/-- C3 (amended): every termination reason a run from reset can carry is drawn
from the closed set `{"Screen", "Tail", "Steps"}`: out-of-bounds movement
yields `"Screen"` (not `"Wall"`), self-collision yields `"Tail"`, starvation
yields `"Steps"`; no other reason value is ever produced. -/
theorem termination_reasons_closed (cfg : Cfg) (rand : List (ℕ × ℕ))
    (acts : List Action) (g : GState) (a : Action) :
    ((run cfg (reset cfg rand) acts).reason = none ∨
      (run cfg (reset cfg rand) acts).reason = some "Screen" ∨
      (run cfg (reset cfg rand) acts).reason = some "Tail" ∨
      (run cfg (reset cfg rand) acts).reason = some "Steps") ∧
    (g.dead = false → cfg.MAX_STEPS_SINCE_LAST_FRUIT ≤ g.steps_since_last_fruit + 1 →
      (step cfg g a).1.reason = some "Steps") ∧
    (g.dead = false → g.steps_since_last_fruit + 1 < cfg.MAX_STEPS_SINCE_LAST_FRUIT →
      out_of_bounds cfg (new_head cfg g a) →
      (step cfg g a).1.reason = some "Screen") ∧
    (g.dead = false → g.steps_since_last_fruit + 1 < cfg.MAX_STEPS_SINCE_LAST_FRUIT →
      ¬ out_of_bounds cfg (new_head cfg g a) → new_head cfg g a ∈ g.snake_set →
      (step cfg g a).1.reason = some "Tail") := by
  refine ⟨reasonOK_run cfg (reset cfg rand) acts (Or.inl rfl), ?_, ?_, ?_⟩
  · intro hd hs
    rw [step_starve cfg g a hd hs]
  · intro hd hs hoob
    rw [step_collide cfg g a hd hs (collides_of_oob cfg g a hoob)]
    have hr := check_collision_screen cfg (new_head cfg g a).1 (new_head cfg g a).2
      g.snake_set (by simpa using hoob)
    simp [hr]
  · intro hd hs hoob hmem
    rw [step_collide cfg g a hd hs (collides_of_mem cfg g a hmem)]
    have hr := check_collision_tail cfg (new_head cfg g a).1 (new_head cfg g a).2
      g.snake_set (by simpa using hoob) (by simpa using hmem)
    simp [hr]

/-- Witness for `termination_reasons_closed`: the wall-death run five moves
from reset, with each of the three cause-specific implications discharged at
a concrete state. -/
theorem termination_reasons_closed_witness :
    ((run cfgDefault (reset cfgDefault [(0, 0)])
        (List.replicate 6 Action.left)).reason = none ∨
      (run cfgDefault (reset cfgDefault [(0, 0)])
        (List.replicate 6 Action.left)).reason = some "Screen" ∨
      (run cfgDefault (reset cfgDefault [(0, 0)])
        (List.replicate 6 Action.left)).reason = some "Tail" ∨
      (run cfgDefault (reset cfgDefault [(0, 0)])
        (List.replicate 6 Action.left)).reason = some "Steps") ∧
    (step cfgStarve (reset cfgStarve []) Action.left).1.reason = some "Steps" ∧
    (step cfgDefault gBeforeWall Action.left).1.reason = some "Screen" ∧
    (step cfgDefault gBeforeTail Action.left).1.reason = some "Tail" :=
  ⟨(termination_reasons_closed cfgDefault [(0, 0)] (List.replicate 6 Action.left)
      gBeforeWall Action.left).1,
    (termination_reasons_closed cfgStarve [] [] (reset cfgStarve []) Action.left).2.1
      (by decide) (by decide),
    (termination_reasons_closed cfgDefault [] [] gBeforeWall Action.left).2.2.1
      (by decide) (by decide) (by decide),
    (termination_reasons_closed cfgDefault [] [] gBeforeTail Action.left).2.2.2
      (by decide) (by decide) (by decide) (by decide)⟩

/-- A surviving non-eating step leaves the game alive and advances the
starvation counter by exactly one. -/
theorem step_alive_counter (cfg : Cfg) (g : GState) (a : Action)
    (hd : g.dead = false)
    (hs : g.steps_since_last_fruit + 1 < cfg.MAX_STEPS_SINCE_LAST_FRUIT)
    (hc : ¬ collides cfg g a) (he : ¬ eats_food cfg g a) :
    (step cfg g a).1.dead = false ∧
    (step cfg g a).1.steps_since_last_fruit = g.steps_since_last_fruit + 1 := by
  rw [step_move cfg g a hd hs hc he]
  by_cases hl : g.snake_length < g.snake_list.length + 1 <;> simp [hl, hd]

/-- Along a run that never eats and never collides while under the starvation
threshold, the game is alive with `steps_since_last_fruit = k` after exactly
`k` steps, for every `k` below the threshold. -/
theorem no_eat_trace (cfg : Cfg) (g0 : GState) (acts : List Action)
    (hg0d : g0.dead = false) (hg0c : g0.steps_since_last_fruit = 0)
    (hnoeat : ∀ k, k < acts.length →
      ¬ eats_food cfg (run cfg g0 (acts.take k)) (acts.getD k Action.left))
    (hnocol : ∀ k, k < acts.length → k + 1 < cfg.MAX_STEPS_SINCE_LAST_FRUIT →
      ¬ collides cfg (run cfg g0 (acts.take k)) (acts.getD k Action.left)) :
    ∀ k, k < cfg.MAX_STEPS_SINCE_LAST_FRUIT → k ≤ acts.length →
      (run cfg g0 (acts.take k)).dead = false ∧
      (run cfg g0 (acts.take k)).steps_since_last_fruit = k := by
  intro k
  induction k with
  | zero =>
    intro _ _
    simpa [run] using ⟨hg0d, hg0c⟩
  | succ k ih =>
    intro hk hkl
    have hk' : k < cfg.MAX_STEPS_SINCE_LAST_FRUIT := Nat.lt_of_succ_lt hk
    have hkl' : k < acts.length := Nat.lt_of_succ_le hkl
    obtain ⟨hd, hc⟩ := ih hk' (Nat.le_of_lt hkl')
    rw [run_take_succ cfg g0 acts k hkl']
    have hs : (run cfg g0 (acts.take k)).steps_since_last_fruit + 1 <
        cfg.MAX_STEPS_SINCE_LAST_FRUIT := by
      rw [hc]; exact hk
    have := step_alive_counter cfg (run cfg g0 (acts.take k)) (acts.getD k Action.left)
      hd hs (hnocol k hkl' hk) (hnoeat k hkl')
    rw [hc] at this
    exact this

/-- C4: the `steps_since_last_fruit` counter increments on every step and
resets to zero exactly when food is consumed, and a run from reset that never
eats (and does not otherwise collide before the threshold) terminates with
reason `"Steps"` exactly at step `MAX_STEPS_SINCE_LAST_FRUIT` — alive with
counter `k` after every earlier step `k`, dead with reason `"Steps"` at step
`N`. -/
theorem starvation_exactly_at_threshold (cfg : Cfg) (rand : List (ℕ × ℕ))
    (acts : List Action) (g : GState) (a : Action)
    (hN : 1 ≤ cfg.MAX_STEPS_SINCE_LAST_FRUIT)
    (hlen : cfg.MAX_STEPS_SINCE_LAST_FRUIT ≤ acts.length)
    (hnoeat : ∀ k, k < acts.length →
      ¬ eats_food cfg (run cfg (reset cfg rand) (acts.take k)) (acts.getD k Action.left))
    (hnocol : ∀ k, k < acts.length → k + 1 < cfg.MAX_STEPS_SINCE_LAST_FRUIT →
      ¬ collides cfg (run cfg (reset cfg rand) (acts.take k)) (acts.getD k Action.left)) :
    (∀ k, k < cfg.MAX_STEPS_SINCE_LAST_FRUIT →
      (run cfg (reset cfg rand) (acts.take k)).dead = false ∧
      (run cfg (reset cfg rand) (acts.take k)).steps_since_last_fruit = k) ∧
    (run cfg (reset cfg rand) (acts.take cfg.MAX_STEPS_SINCE_LAST_FRUIT)).dead = true ∧
    (run cfg (reset cfg rand) (acts.take cfg.MAX_STEPS_SINCE_LAST_FRUIT)).reason =
      some "Steps" ∧
    (g.dead = false →
      (step cfg g a).1.steps_since_last_fruit =
        if g.steps_since_last_fruit + 1 < cfg.MAX_STEPS_SINCE_LAST_FRUIT ∧
            ¬ collides cfg g a ∧ eats_food cfg g a
        then 0 else g.steps_since_last_fruit + 1) := by
  have hg0d : (reset cfg rand).dead = false := rfl
  have hg0c : (reset cfg rand).steps_since_last_fruit = 0 := rfl
  have htrace := no_eat_trace cfg (reset cfg rand) acts hg0d hg0c hnoeat hnocol
  have hM1 : cfg.MAX_STEPS_SINCE_LAST_FRUIT - 1 + 1 =
      cfg.MAX_STEPS_SINCE_LAST_FRUIT := Nat.succ_pred_eq_of_pos hN
  obtain ⟨hd, hc⟩ := htrace (cfg.MAX_STEPS_SINCE_LAST_FRUIT - 1) (by omega)
    (by omega)
  have hrun : run cfg (reset cfg rand) (acts.take cfg.MAX_STEPS_SINCE_LAST_FRUIT) =
      (step cfg
        (run cfg (reset cfg rand) (acts.take (cfg.MAX_STEPS_SINCE_LAST_FRUIT - 1)))
        (acts.getD (cfg.MAX_STEPS_SINCE_LAST_FRUIT - 1) Action.left)).1 := by
    conv_lhs => rw [← hM1]
    exact run_take_succ cfg (reset cfg rand) acts
      (cfg.MAX_STEPS_SINCE_LAST_FRUIT - 1) (by omega)
  refine ⟨fun k hk => htrace k hk (le_trans (Nat.le_of_lt hk) hlen), ?_, ?_, ?_⟩
  · rw [hrun, step_starve cfg _ _ hd (by rw [hc]; omega)]
  · rw [hrun, step_starve cfg _ _ hd (by rw [hc]; omega)]
  · intro hd
    by_cases hs : g.steps_since_last_fruit + 1 < cfg.MAX_STEPS_SINCE_LAST_FRUIT
    · by_cases hc : collides cfg g a
      · rw [step_collide cfg g a hd hs hc]
        simp [hc]
      · by_cases he : eats_food cfg g a
        · rw [step_eat cfg g a hd hs hc he]
          simp [hs, hc, he]
        · rw [step_move cfg g a hd hs hc he]
          by_cases hl : g.snake_length < g.snake_list.length + 1 <;>
            simp [hl, he]
    · rw [step_starve cfg g a hd (by omega)]
      simp [hs]

/-- A configuration with starvation threshold 2 on the default board. -/
def cfgStarve2 : Cfg := { MAX_STEPS_SINCE_LAST_FRUIT := 2 }

/-- Witness for `starvation_exactly_at_threshold`: with threshold 2 and two
left moves on the default board (food at `(0, 0)`, never reached), the run is
alive after steps 0 and 1 and dies of starvation exactly at step 2. -/
theorem starvation_exactly_at_threshold_witness :
    1 ≤ cfgStarve2.MAX_STEPS_SINCE_LAST_FRUIT ∧
    cfgStarve2.MAX_STEPS_SINCE_LAST_FRUIT ≤
      ([Action.left, Action.left] : List Action).length ∧
    (∀ k, k < ([Action.left, Action.left] : List Action).length →
      ¬ eats_food cfgStarve2
        (run cfgStarve2 (reset cfgStarve2 [(0, 0)])
          (([Action.left, Action.left] : List Action).take k))
        (([Action.left, Action.left] : List Action).getD k Action.left)) ∧
    (run cfgStarve2 (reset cfgStarve2 [(0, 0)])
      (([Action.left, Action.left] : List Action).take
        cfgStarve2.MAX_STEPS_SINCE_LAST_FRUIT)).dead = true ∧
    (run cfgStarve2 (reset cfgStarve2 [(0, 0)])
      (([Action.left, Action.left] : List Action).take
        cfgStarve2.MAX_STEPS_SINCE_LAST_FRUIT)).reason = some "Steps" :=
  ⟨by decide, by decide, by decide,
    (starvation_exactly_at_threshold cfgStarve2 [(0, 0)]
      [Action.left, Action.left] (reset cfgStarve2 [(0, 0)]) Action.left
      (by decide) (by decide) (by decide) (by decide)).2.1,
    (starvation_exactly_at_threshold cfgStarve2 [(0, 0)]
      [Action.left, Action.left] (reset cfgStarve2 [(0, 0)]) Action.left
      (by decide) (by decide) (by decide) (by decide)).2.2.1⟩

/-- The structural invariant of the snake body: the ordered list is nonempty
and duplicate-free, the membership set is exactly the set of its elements,
and `snake_length` is the list length. -/
def Inv (g : GState) : Prop :=
  g.snake_list ≠ [] ∧ g.snake_list.Nodup ∧
    g.snake_set = g.snake_list.toFinset ∧
    g.snake_length = g.snake_list.length

theorem inv_reset (cfg : Cfg) (rand : List (ℕ × ℕ)) : Inv (reset cfg rand) := by
  refine ⟨by simp [reset], by simp [reset], by simp [reset], by simp [reset]⟩

theorem inv_step (cfg : Cfg) (g : GState) (a : Action) (h : Inv g) :
    Inv (step cfg g a).1 := by
  obtain ⟨hne, hnd, hset, hlen⟩ := h
  by_cases hd : g.dead = true
  · rw [step_of_dead cfg g a hd]
    exact ⟨hne, hnd, hset, hlen⟩
  have hd' : g.dead = false := by simpa using hd
  by_cases hs : cfg.MAX_STEPS_SINCE_LAST_FRUIT ≤ g.steps_since_last_fruit + 1
  · rw [step_starve cfg g a hd' hs]
    exact ⟨hne, hnd, hset, hlen⟩
  have hs' : g.steps_since_last_fruit + 1 < cfg.MAX_STEPS_SINCE_LAST_FRUIT :=
    lt_of_not_le hs
  by_cases hc : collides cfg g a
  · rw [step_collide cfg g a hd' hs' hc]
    exact ⟨hne, hnd, hset, hlen⟩
  have hmem : new_head cfg g a ∉ g.snake_set := fun hm =>
    hc (collides_of_mem cfg g a hm)
  have hnotin : new_head cfg g a ∉ g.snake_list := by
    rw [hset] at hmem
    simpa using hmem
  by_cases he : eats_food cfg g a
  · rw [step_eat cfg g a hd' hs' hc he]
    refine ⟨by simp, ?_, ?_, by simp [hlen]⟩
    · simp [List.nodup_append, hnd, hnotin]
    · rw [hset]
      ext p
      simp only [Finset.mem_insert, List.mem_toFinset, List.mem_append,
        List.mem_singleton]
      tauto
  · rw [step_move cfg g a hd' hs' hc he]
    rw [if_pos (by rw [hlen]; exact Nat.lt_succ_self _)]
    rcases hl : g.snake_list with _ | ⟨x, xs⟩
    · exact absurd hl hne
    rw [hl] at hnd hset hlen hnotin
    have hxnotin : x ∉ xs := (List.nodup_cons.mp hnd).1
    have hxsnd : xs.Nodup := (List.nodup_cons.mp hnd).2
    have hnh : new_head cfg g a ≠ x := fun hq => hnotin (by rw [hq]; simp)
    have hnhxs : new_head cfg g a ∉ xs := fun hq => hnotin (by simp [hq])
    refine ⟨by simp, ?_, ?_, by simpa using hlen⟩
    · simp [List.nodup_append, hxsnd, hnhxs]
    · rw [hset]
      show (insert (new_head cfg g a) (x :: xs).toFinset).erase
          ((x :: xs ++ [new_head cfg g a]).headD (0, 0)) =
        ((x :: xs).tail ++ [new_head cfg g a]).toFinset
      ext p
      simp only [List.cons_append, List.headD_cons, Finset.mem_erase,
        Finset.mem_insert, List.toFinset_cons, List.mem_toFinset,
        List.tail_cons, List.mem_append, List.mem_singleton]
      constructor
      · rintro ⟨hpx, hp | hp | hp⟩
        · exact Or.inr hp
        · exact absurd hp hpx
        · exact Or.inl hp
      · rintro (hp | hp)
        · exact ⟨fun hq => hxnotin (hq ▸ hp), Or.inr (Or.inr hp)⟩
        · exact ⟨hp ▸ hnh, Or.inl hp⟩

theorem inv_run (cfg : Cfg) (g : GState) (as : List Action) (h : Inv g) :
    Inv (run cfg g as) := by
  induction as generalizing g with
  | nil => exact h
  | cons a rest ih => exact ih (step cfg g a).1 (inv_step cfg g a h)

/-- A step that leaves the game alive changes `snake_length` by one exactly
when its reward is 1 (food eaten) and otherwise leaves it unchanged. -/
theorem alive_step_length (cfg : Cfg) (g : GState) (a : Action)
    (hd : g.dead = false) (h1 : (step cfg g a).1.dead = false) :
    (step cfg g a).1.snake_length =
      g.snake_length + (if (step cfg g a).2.1 = 1 then 1 else 0) := by
  by_cases hs : cfg.MAX_STEPS_SINCE_LAST_FRUIT ≤ g.steps_since_last_fruit + 1
  · rw [step_starve cfg g a hd hs] at h1
    simp at h1
  have hs' : g.steps_since_last_fruit + 1 < cfg.MAX_STEPS_SINCE_LAST_FRUIT :=
    lt_of_not_le hs
  by_cases hc : collides cfg g a
  · rw [step_collide cfg g a hd hs' hc] at h1
    simp at h1
  by_cases he : eats_food cfg g a
  · rw [step_eat cfg g a hd hs' hc he]
    simp
  · rw [step_move cfg g a hd hs' hc he]
    by_cases hl : g.snake_length < g.snake_list.length + 1 <;> simp [hl]

theorem run_length_eats (cfg : Cfg) (g0 : GState) (as : List Action)
    (h : (run cfg g0 as).dead = false) :
    (run cfg g0 as).snake_length = g0.snake_length + eatCount cfg g0 as := by
  induction as generalizing g0 with
  | nil => simp [run, eatCount]
  | cons a rest ih =>
    have hrw : run cfg g0 (a :: rest) = run cfg (step cfg g0 a).1 rest := rfl
    have hmid : (step cfg g0 a).1.dead = false := by
      by_contra hcon
      have hdd : (step cfg g0 a).1.dead = true := by
        cases hx : (step cfg g0 a).1.dead with
        | false => exact absurd hx hcon
        | true => rfl
      have hstop : run cfg g0 (a :: rest) = (step cfg g0 a).1 := by
        rw [hrw]
        exact run_of_dead cfg _ rest hdd
      rw [hstop] at h
      rw [h] at hdd
      exact Bool.false_ne_true hdd
    have hg0 : g0.dead = false := by
      cases hx : g0.dead with
      | false => rfl
      | true =>
        rw [step_of_dead cfg g0 a hx] at hmid
        rw [hx] at hmid
        exact absurd hmid (by simp)
    rw [hrw, eatCount, ih (step cfg g0 a).1 (by rw [← hrw]; exact h)]
    have hstep := alive_step_length cfg g0 a hg0 hmid
    by_cases hr : (step cfg g0 a).2.1 = 1 <;> simp [hr] at hstep ⊢ <;> omega

/-- C7: for every run after reset whose steps never terminate, after every
step the score equals the number of food items eaten so far, the snake length
equals score + 1, the ordered body sequence is duplicate-free, and the
membership set equals the set of sequence elements. -/
theorem score_and_distinct_invariant (cfg : Cfg) (rand : List (ℕ × ℕ))
    (acts : List Action) (h : (run cfg (reset cfg rand) acts).dead = false) :
    ∀ k,
      get_score (run cfg (reset cfg rand) (acts.take k)) =
        (eatCount cfg (reset cfg rand) (acts.take k) : ℤ) ∧
      (run cfg (reset cfg rand) (acts.take k)).snake_length =
        eatCount cfg (reset cfg rand) (acts.take k) + 1 ∧
      (run cfg (reset cfg rand) (acts.take k)).snake_list.Nodup ∧
      (run cfg (reset cfg rand) (acts.take k)).snake_set =
        (run cfg (reset cfg rand) (acts.take k)).snake_list.toFinset := by
  intro k
  have halive := run_alive_of_prefix cfg (reset cfg rand) acts h k
  have hinv := inv_run cfg (reset cfg rand) (acts.take k) (inv_reset cfg rand)
  have hlen := run_length_eats cfg (reset cfg rand) (acts.take k) halive
  have h1 : (reset cfg rand).snake_length = 1 := rfl
  rw [h1] at hlen
  refine ⟨?_, by omega, hinv.2.1, hinv.2.2.1⟩
  unfold get_score
  rw [hlen]
  push_cast
  ring

/-- Witness for `score_and_distinct_invariant`: the one-step eating run on
the default board — food at `(600, 500)`, one right move — stays alive, and
after step 1 the score is 1, the length 2, and the body distinct. -/
theorem score_and_distinct_invariant_witness :
    (run cfgDefault (reset cfgDefault [(600, 500), (0, 0)])
      [Action.right]).dead = false ∧
    (get_score (run cfgDefault (reset cfgDefault [(600, 500), (0, 0)])
        (([Action.right] : List Action).take 1)) =
      (eatCount cfgDefault (reset cfgDefault [(600, 500), (0, 0)])
        (([Action.right] : List Action).take 1) : ℤ) ∧
      (run cfgDefault (reset cfgDefault [(600, 500), (0, 0)])
        (([Action.right] : List Action).take 1)).snake_length =
        eatCount cfgDefault (reset cfgDefault [(600, 500), (0, 0)])
          (([Action.right] : List Action).take 1) + 1 ∧
      (run cfgDefault (reset cfgDefault [(600, 500), (0, 0)])
        (([Action.right] : List Action).take 1)).snake_list.Nodup ∧
      (run cfgDefault (reset cfgDefault [(600, 500), (0, 0)])
        (([Action.right] : List Action).take 1)).snake_set =
        (run cfgDefault (reset cfgDefault [(600, 500), (0, 0)])
          (([Action.right] : List Action).take 1)).snake_list.toFinset) :=
  ⟨by decide,
    score_and_distinct_invariant cfgDefault [(600, 500), (0, 0)]
      [Action.right] (by decide) 1⟩

set_option maxRecDepth 100000 in
/-- C5 (code bug): `_generate_food_position` hard-codes `round(r / 10.0) *
10.0`, so every generated coordinate is a multiple of 10 — not of the
configured `BLOCK_SIZE` (default 100): the valid draw 890 yields food x-
coordinate 890, which is not block-aligned (and unreachable by a snake that
moves in steps of 100 from 500).  The choice is also not uniform over cells:
rounding gives cell 0 six preimage draws, cell 10 nine, and cell 900 five.
All outputs for valid draws do lie inside the board. -/
theorem generate_food_position_misaligned :
    (∀ r : ℕ × ℕ, (10 : ℤ) ∣ (generate_food_position r).1 ∧
      (10 : ℤ) ∣ (generate_food_position r).2 ∧
      0 ≤ (generate_food_position r).1 ∧ 0 ≤ (generate_food_position r).2) ∧
    generate_food_position (890, 0) = (890, 0) ∧
    cfgDefault.BLOCK_SIZE = 100 ∧
    ¬ ((100 : ℤ) ∣ (generate_food_position (890, 0)).1) ∧
    (Finset.filter (fun r => roundTenth r = 0) (Finset.range 900)).card = 6 ∧
    (Finset.filter (fun r => roundTenth r = 1) (Finset.range 900)).card = 9 ∧
    (Finset.filter (fun r => roundTenth r = 90) (Finset.range 900)).card = 5 ∧
    Finset.filter
      (fun r => ¬ ((roundTenth r : ℤ) * 10 < cfgDefault.DISPLAY_WIDTH))
      (Finset.range 900) = ∅ := by
  refine ⟨fun r => ⟨dvd_mul_left 10 _, dvd_mul_left 10 _, ?_, ?_⟩,
    by decide, by decide, by decide, by decide, by decide, by decide, by decide⟩
  · show (0 : ℤ) ≤ (roundTenth r.1 : ℤ) * 10
    positivity
  · show (0 : ℤ) ≤ (roundTenth r.2 : ℤ) * 10
    positivity

/-! ## The agent: state representations, state keys and the Q-learning update
(`state_representations.py` and `agent.py`). -/

/-- The `GameState` dataclass of `state_representations.py` (the derived
`_state_str` / `_full_state_str` caches are recomputed, not stored: they are
functions of the other fields). -/
structure GameState where
  distance : ℤ × ℤ
  position : List String
  surroundings : String
  food : ℤ × ℤ
  direction : ℕ
  strategy_name : String
deriving DecidableEq

/-- `_get_food_position`: raw per-axis distances from head to food and the
categorical relative positions. -/
def get_food_position (snake_head food : ℤ × ℤ) : ℤ × ℤ × String × String :=
  let dist_x := food.1 - snake_head.1
  let dist_y := food.2 - snake_head.2
  let pos_x := if 0 < dist_x then "1" else if dist_x < 0 then "0" else "NA"
  let pos_y := if 0 < dist_y then "3" else if dist_y < 0 then "2" else "NA"
  (dist_x, dist_y, pos_x, pos_y)

/-- `_get_surroundings`: danger bits for the four neighbours of the head, in
the order left, right, up, down. -/
def get_surroundings (snake_head : ℤ × ℤ) (snake_body_set : Finset (ℤ × ℤ))
    (display_width display_height block_size : ℤ) : String :=
  let adjacent_squares :=
    [(snake_head.1 - block_size, snake_head.2),
     (snake_head.1 + block_size, snake_head.2),
     (snake_head.1, snake_head.2 - block_size),
     (snake_head.1, snake_head.2 + block_size)]
  String.join (adjacent_squares.map (fun square =>
    if square.1 < 0 ∨ square.2 < 0 then "1"
    else if display_width ≤ square.1 ∨ display_height ≤ square.2 then "1"
    else if square ∈ snake_body_set then "1"
    else "0"))

/-- `get_state_basic`: relative food position, surroundings, direction;
strategy tag `"basic"`.  Python's `snake[-1]` / `set(snake[:-1])` become
`getLastD` / `dropLast.toFinset`. -/
def get_state_basic (direction : ℕ) (snake : List (ℤ × ℤ)) (food : ℤ × ℤ)
    (display_width display_height block_size : ℤ) : GameState :=
  let snake_head := snake.getLastD (0, 0)
  let snake_body_set := snake.dropLast.toFinset
  let f := get_food_position snake_head food
  { distance := (f.1, f.2.1)
    position := [f.2.2.1, f.2.2.2]
    surroundings := get_surroundings snake_head snake_body_set display_width
      display_height block_size
    food := food
    direction := direction
    strategy_name := "basic" }

/-- `get_state_enhanced`: like basic plus a normalized-length bit in the
position tuple; strategy tag `"enhanced"`. -/
def get_state_enhanced (direction : ℕ) (snake : List (ℤ × ℤ)) (food : ℤ × ℤ)
    (display_width display_height block_size : ℤ) : GameState :=
  let snake_head := snake.getLastD (0, 0)
  let snake_body_set := snake.dropLast.toFinset
  let f := get_food_position snake_head food
  let normalized_length := if 100 < snake.length then "1" else "0"
  { distance := (f.1, f.2.1)
    position := [f.2.2.1, f.2.2.2, normalized_length]
    surroundings := get_surroundings snake_head snake_body_set display_width
      display_height block_size
    food := food
    direction := direction
    strategy_name := "enhanced" }

/-- `get_state_naive`: raw head coordinates as the distance field, raw food
coordinates (as strings) as the position tuple, no surroundings; strategy
tag `"naive"`. -/
def get_state_naive (direction : ℕ) (snake : List (ℤ × ℤ)) (food : ℤ × ℤ)
    (display_width display_height block_size : ℤ) : GameState :=
  let snake_head := snake.getLastD (0, 0)
  { distance := (snake_head.1, snake_head.2)
    position := [toString food.1, toString food.2]
    surroundings := "NA"
    food := food
    direction := direction
    strategy_name := "naive" }

/-- The keys of the `STATE_REPRESENTATIONS` registry. -/
inductive Strategy where
  | basic
  | enhanced
  | naive
deriving DecidableEq, Repr

/-- The `STATE_REPRESENTATIONS` dispatch. -/
def encode (s : Strategy) (direction : ℕ) (snake : List (ℤ × ℤ))
    (food : ℤ × ℤ) (display_width display_height block_size : ℤ) : GameState :=
  match s with
  | .basic => get_state_basic direction snake food display_width display_height
      block_size
  | .enhanced => get_state_enhanced direction snake food display_width
      display_height block_size
  | .naive => get_state_naive direction snake food display_width display_height
      block_size

/-- The registry key of each strategy. -/
def strategyName : Strategy → String
  | .basic => "basic"
  | .enhanced => "enhanced"
  | .naive => "naive"

/-- The single-quote character of Python `repr` for strings. -/
def quoteChar : Char := Char.ofNat 39

/-- Python `repr` of one of the state strings (they contain no quotes or
escapes, so `repr` just wraps them in single quotes). -/
def pyRepr (s : String) : String :=
  String.singleton quoteChar ++ s ++ String.singleton quoteChar

/-- The base state string of `Agent._get_state_str`: Python
`str((*state.position, state.surroundings, state.direction))` — a
parenthesized, comma-separated tuple of the quoted strings and the bare
direction integer. -/
def base_state_str (s : GameState) : String :=
  "(" ++ String.intercalate ", "
    (s.position.map pyRepr ++ [pyRepr s.surroundings, toString s.direction]) ++ ")"

/-- `Agent._get_state_str`: the strategy-name prefix, a colon, then the base
state string.  (The Python code caches this on the state object; the cache
is a pure function of the fields.) -/
def get_state_str (s : GameState) : String :=
  s.strategy_name ++ ":" ++ base_state_str s

/-- The agent's Q-table `self.qvalues`: a string-keyed mapping to rows of 4
action values, modelled as an association list in insertion order. -/
abbrev QTable := List (String × List ℚ)

/-- Dictionary lookup `qvalues[key]` (as an `Option`). -/
def lookupQ : QTable → String → Option (List ℚ)
  | [], _ => none
  | (k, v) :: rest, key => if k = key then some v else lookupQ rest key

/-- Dictionary write `qvalues[key] = v`: replace in place, or append a new
key at the end. -/
def setQ : QTable → String → List ℚ → QTable
  | [], key, v => [(key, v)]
  | (k, w) :: rest, key, v =>
    if k = key then (key, v) :: rest else (k, w) :: setQ rest key v

/-- The lazy initialization `if key not in qvalues: qvalues[key] = [0.0]*4`
(the action set has 4 entries). -/
def ensureQ (q : QTable) (key : String) : QTable :=
  if (lookupQ q key).isSome then q else setQ q key (List.replicate 4 0)

/-- Read a row that is known to be present (`[]` as the junk default). -/
def getRow (q : QTable) (key : String) : List ℚ :=
  (lookupQ q key).getD []

/-- Python `max(row)` (rows are non-empty in every use). -/
def maxRow : List ℚ → ℚ
  | [] => 0
  | x :: xs => xs.foldl max x

/-- One entry of `Agent.history`: the encoded state and the chosen action
index. -/
structure HEntry where
  state : GameState
  action : ℕ
deriving DecidableEq

/-- The fixed terminal penalty of `Agent.update`: −3 for `"Steps"`, −30 for
every other (collision) reason. -/
def terminal_reward (reason : String) : ℚ :=
  if reason = "Steps" then -3 else -30

/-- The terminal block of `Agent.update`: lazily initialize the row of the
last recorded state and overwrite the entry of the last action with
`(1−α)·old + α·penalty` (no future-value term). -/
def terminal_update (α : ℚ) (q : QTable) (history : List HEntry)
    (reason : String) : QTable × ℚ :=
  match history.getLast? with
  | none => (q, 0)
  | some e =>
    let state_str := get_state_str e.state
    let q1 := ensureQ q state_str
    let reward := terminal_reward reason
    let row := getRow q1 state_str
    (setQ q1 state_str
      (row.set e.action ((1 - α) * row.getD e.action 0 + α * reward)), reward)

/-- One iteration of the interior loop of `Agent.update` for the consecutive
pair `(s0, a0) → s1`: shaped reward (10 on food change, ±0.001 on distance
decrease/otherwise), lazy initialization of both rows, then the Bellman
update `Q[s0][a0] ← (1−α)·Q[s0][a0] + α·(reward + γ·max Q[s1])`. -/
def pair_update (α γ : ℚ) (q : QTable) (e0 e1 : HEntry) : QTable × ℚ :=
  let x1 := e0.state.distance.1
  let y1 := e0.state.distance.2
  let x2 := e1.state.distance.1
  let y2 := e1.state.distance.2
  let reward : ℚ :=
    if e0.state.food ≠ e1.state.food then 10
    else if |x1| > |x2| ∨ |y1| > |y2| then 1 / 1000
    else -(1 / 1000)
  let state_str := get_state_str e0.state
  let new_state_str := get_state_str e1.state
  let q1 := ensureQ (ensureQ q state_str) new_state_str
  let row := getRow q1 state_str
  (setQ q1 state_str
    (row.set e0.action
      ((1 - α) * row.getD e0.action 0 +
        α * (reward + γ * maxRow (getRow q1 new_state_str)))), reward)

/-- The interior loop of `Agent.update`: walk the history forward, applying
`pair_update` to each consecutive pair and accumulating the shaped reward. -/
def interior_loop (α γ : ℚ) : QTable → ℚ → List HEntry → QTable × ℚ
  | q, acc, e0 :: e1 :: rest =>
    interior_loop α γ (pair_update α γ q e0 e1).1
      (acc + (pair_update α γ q e0 e1).2) (e1 :: rest)
  | q, acc, _ => (q, acc)

/-- `Agent.update`: nothing on an empty history; otherwise the terminal block
when the reason is truthy (a non-`None`, non-empty string), followed by the
forward interior loop; returns the updated table and the total reward. -/
def update (α γ : ℚ) (reason : Option String) (history : List HEntry)
    (q : QTable) : QTable × ℚ :=
  if history.isEmpty then (q, 0)
  else
    let t :=
      match reason with
      | some r => if r = "" then (q, 0) else terminal_update α q history r
      | none => (q, 0)
    interior_loop α γ t.1 t.2 history

theorem lookupQ_setQ (q : QTable) (key k2 : String) (v : List ℚ) :
    lookupQ (setQ q key v) k2 = if key = k2 then some v else lookupQ q k2 := by
  induction q with
  | nil => simp [setQ, lookupQ]
  | cons p rest ih =>
    obtain ⟨k, w⟩ := p
    by_cases hk : k = key
    · subst hk
      by_cases h2 : k = k2 <;> simp [setQ, lookupQ, h2]
    · by_cases h2 : k = k2
      · subst h2
        have hk2 : ¬ key = k := fun h => hk h.symm
        simp [setQ, hk, lookupQ, hk2]
      · simp [setQ, hk, lookupQ, h2, ih]

theorem lookupQ_ensureQ_ne (q : QTable) (key k2 : String) (h : key ≠ k2) :
    lookupQ (ensureQ q key) k2 = lookupQ q k2 := by
  by_cases hq : (lookupQ q key).isSome <;> simp [ensureQ, hq, lookupQ_setQ, h]

theorem getD_set_ne (l : List ℚ) (i j : ℕ) (v : ℚ) (h : i ≠ j) :
    (l.set i v).getD j 0 = l.getD j 0 := by
  simp [List.getD, List.getElem?_set_ne h]

/-- C6: when `Agent.update` runs with a truthy termination reason on a
non-empty trajectory, its terminal-only block rewrites exactly the Q-entry of
the final (state, action) pair, replacing its (lazily initialized) old value
`v` by `v + α·(penalty − v)` with no bootstrapped future-value term; lookups
of every other key are unchanged, other entries of the touched row are
unchanged, and the penalty magnitude is larger for collision reasons
(`"Screen"`/`"Tail"`, −30) than for `"Steps"` (−3). -/
theorem terminal_update_modifies_only_last (α γ : ℚ) (q : QTable)
    (history : List HEntry) (e : HEntry) (r : String)
    (hlast : history.getLast? = some e) :
    (terminal_update α q history r).1 =
      setQ (ensureQ q (get_state_str e.state)) (get_state_str e.state)
        ((getRow (ensureQ q (get_state_str e.state)) (get_state_str e.state)).set
          e.action
          ((getRow (ensureQ q (get_state_str e.state))
              (get_state_str e.state)).getD e.action 0 +
            α * (terminal_reward r -
              (getRow (ensureQ q (get_state_str e.state))
                (get_state_str e.state)).getD e.action 0))) ∧
    (∀ k2, k2 ≠ get_state_str e.state →
      lookupQ (terminal_update α q history r).1 k2 = lookupQ q k2) ∧
    (∀ j, j ≠ e.action →
      (getRow (terminal_update α q history r).1 (get_state_str e.state)).getD j 0 =
        (getRow (ensureQ q (get_state_str e.state))
          (get_state_str e.state)).getD j 0) ∧
    terminal_reward "Steps" = -3 ∧
    (r ≠ "Steps" → terminal_reward r = -30) ∧
    |terminal_reward "Screen"| > |terminal_reward "Steps"| ∧
    |terminal_reward "Tail"| > |terminal_reward "Steps"| ∧
    (history ≠ [] → r ≠ "" →
      update α γ (some r) history q =
        interior_loop α γ (terminal_update α q history r).1
          (terminal_update α q history r).2 history) := by
  have hT : terminal_update α q history r =
      (setQ (ensureQ q (get_state_str e.state)) (get_state_str e.state)
        ((getRow (ensureQ q (get_state_str e.state)) (get_state_str e.state)).set
          e.action
          ((1 - α) * (getRow (ensureQ q (get_state_str e.state))
              (get_state_str e.state)).getD e.action 0 +
            α * terminal_reward r)), terminal_reward r) := by
    unfold terminal_update
    rw [hlast]
  have hSteps : terminal_reward "Steps" = (-3 : ℚ) := by
    unfold terminal_reward
    rw [if_pos rfl]
  have hScreen : terminal_reward "Screen" = (-30 : ℚ) := by
    unfold terminal_reward
    rw [if_neg (by decide)]
  have hTail : terminal_reward "Tail" = (-30 : ℚ) := by
    unfold terminal_reward
    rw [if_neg (by decide)]
  have habs : |(-30 : ℚ)| > |(-3 : ℚ)| := by
    rw [abs_neg, abs_neg, abs_of_nonneg (by norm_num : (0 : ℚ) ≤ 30),
      abs_of_nonneg (by norm_num : (0 : ℚ) ≤ 3)]
    norm_num
  refine ⟨?_, ?_, ?_, hSteps, ?_,
    by rw [hScreen, hSteps]; exact habs,
    by rw [hTail, hSteps]; exact habs, ?_⟩
  · rw [hT]
    have hval : ∀ v p : ℚ, (1 - α) * v + α * p = v + α * (p - v) := fun v p => by
      ring
    rw [hval]
  · intro k2 hk2
    rw [hT]
    simp only [lookupQ_setQ]
    rw [if_neg (fun h => hk2 h.symm)]
    exact lookupQ_ensureQ_ne q (get_state_str e.state) k2 (fun h => hk2 h.symm)
  · intro j hj
    rw [hT]
    simp only [getRow, lookupQ_setQ, if_pos rfl, Option.getD_some]
    exact getD_set_ne _ e.action j _ (fun h => hj h.symm)
  · intro hr
    simp [terminal_reward, hr]
  · intro hne hr
    cases history with
    | nil => exact absurd rfl hne
    | cons h0 t => simp [update, hr]

/-- The base-value `GameState` used by concrete agent examples. -/
def st0 : GameState :=
  { distance := (0, 0), position := ["NA", "NA"], surroundings := "0000",
    food := (0, 0), direction := 1, strategy_name := "basic" }

/-- Witness for `terminal_update_modifies_only_last`: a one-entry history
with reason `"Tail"` on the empty table leaves the lookup of an unrelated
key unchanged. -/
theorem terminal_update_modifies_only_last_witness :
    ([⟨st0, 1⟩] : List HEntry).getLast? = some ⟨st0, 1⟩ ∧
    lookupQ (terminal_update (1 / 2) [] [⟨st0, 1⟩] "Tail").1 "k" =
      lookupQ [] "k" :=
  ⟨rfl,
    (terminal_update_modifies_only_last (1 / 2) (9 / 10) [] [⟨st0, 1⟩]
      ⟨st0, 1⟩ "Tail" rfl).2.1 "k" (by decide)⟩

/-- C1: `Agent.update` with no termination reason processes the consecutive
pairs of the trajectory walking forward — the first pair's Bellman update is
applied, then the loop continues on the tail; trajectories with fewer than
two entries update nothing.  Each pair's shaped reward is 10 when the food
position differs between the two states, else 1/1000 when the per-axis
absolute distance strictly decreased on at least one axis, else −1/1000; the
write sets `Q[s0][a0]` to `(1−α)·Q[s0][a0] + α·(reward + γ·max Q[s1])` over
the lazily initialized rows.  For the basic encoder the distance field is
exactly the per-axis distance from head to food. -/
theorem update_interior_bellman (α γ : ℚ) (q : QTable) (e0 e1 e : HEntry)
    (rest : List HEntry) (d : ℕ) (sn : List (ℤ × ℤ)) (f : ℤ × ℤ)
    (dw dh bs : ℤ) :
    update α γ none (e0 :: e1 :: rest) q =
      interior_loop α γ (pair_update α γ q e0 e1).1 (pair_update α γ q e0 e1).2
        (e1 :: rest) ∧
    update α γ none [] q = (q, 0) ∧
    update α γ none [e] q = (q, 0) ∧
    (pair_update α γ q e0 e1).2 =
      (if e0.state.food ≠ e1.state.food then 10
       else if |e0.state.distance.1| > |e1.state.distance.1| ∨
           |e0.state.distance.2| > |e1.state.distance.2| then 1 / 1000
       else -(1 / 1000)) ∧
    lookupQ (pair_update α γ q e0 e1).1 (get_state_str e0.state) =
      some ((getRow (ensureQ (ensureQ q (get_state_str e0.state))
          (get_state_str e1.state)) (get_state_str e0.state)).set e0.action
        ((1 - α) * (getRow (ensureQ (ensureQ q (get_state_str e0.state))
            (get_state_str e1.state)) (get_state_str e0.state)).getD e0.action 0 +
          α * ((pair_update α γ q e0 e1).2 +
            γ * maxRow (getRow (ensureQ (ensureQ q (get_state_str e0.state))
              (get_state_str e1.state)) (get_state_str e1.state))))) ∧
    (encode .basic d sn f dw dh bs).distance =
      (f.1 - (sn.getLastD (0, 0)).1, f.2 - (sn.getLastD (0, 0)).2) := by
  refine ⟨?_, rfl, ?_, rfl, ?_, rfl⟩
  · simp [update, interior_loop]
  · simp [update, interior_loop]
  · have h1 : (pair_update α γ q e0 e1).1 =
        setQ (ensureQ (ensureQ q (get_state_str e0.state))
            (get_state_str e1.state)) (get_state_str e0.state)
          ((getRow (ensureQ (ensureQ q (get_state_str e0.state))
              (get_state_str e1.state)) (get_state_str e0.state)).set e0.action
            ((1 - α) * (getRow (ensureQ (ensureQ q (get_state_str e0.state))
                (get_state_str e1.state)) (get_state_str e0.state)).getD
                e0.action 0 +
              α * ((pair_update α γ q e0 e1).2 +
                γ * maxRow (getRow (ensureQ (ensureQ q (get_state_str e0.state))
                  (get_state_str e1.state)) (get_state_str e1.state))))) := rfl
    rw [h1, lookupQ_setQ, if_pos rfl]

/-- The first character of each strategy's registry key. -/
def headChar : Strategy → Char
  | .basic => 'b'
  | .enhanced => 'e'
  | .naive => 'n'

theorem encode_strategy_name (s : Strategy) (d : ℕ) (sn : List (ℤ × ℤ))
    (f : ℤ × ℤ) (dw dh bs : ℤ) :
    (encode s d sn f dw dh bs).strategy_name = strategyName s := by
  cases s <;> rfl

theorem get_state_str_head (s : Strategy) (st : GameState)
    (hs : st.strategy_name = strategyName s) :
    (get_state_str st).data.head? = some (headChar s) := by
  unfold get_state_str
  rw [hs]
  cases s <;> rfl

/-- C8: every state-encoding strategy is a pure function — equal inputs give
an identical state key — and two distinct strategies applied to the same
inputs never produce the same key, because the key starts with the
strategy's identifier. -/
theorem encoder_keys_deterministic_and_disjoint (s1 s2 : Strategy)
    (x y : ℕ × List (ℤ × ℤ) × (ℤ × ℤ) × ℤ × ℤ × ℤ) (hxy : x = y)
    (hne : s1 ≠ s2) :
    get_state_str (encode s1 x.1 x.2.1 x.2.2.1 x.2.2.2.1 x.2.2.2.2.1
        x.2.2.2.2.2) =
      get_state_str (encode s1 y.1 y.2.1 y.2.2.1 y.2.2.2.1 y.2.2.2.2.1
        y.2.2.2.2.2) ∧
    get_state_str (encode s1 x.1 x.2.1 x.2.2.1 x.2.2.2.1 x.2.2.2.2.1
        x.2.2.2.2.2) ≠
      get_state_str (encode s2 x.1 x.2.1 x.2.2.1 x.2.2.2.1 x.2.2.2.2.1
        x.2.2.2.2.2) := by
  subst hxy
  refine ⟨rfl, fun heq => ?_⟩
  have h1 := get_state_str_head s1
    (encode s1 x.1 x.2.1 x.2.2.1 x.2.2.2.1 x.2.2.2.2.1 x.2.2.2.2.2)
    (encode_strategy_name s1 x.1 x.2.1 x.2.2.1 x.2.2.2.1 x.2.2.2.2.1
      x.2.2.2.2.2)
  have h2 := get_state_str_head s2
    (encode s2 x.1 x.2.1 x.2.2.1 x.2.2.2.1 x.2.2.2.2.1 x.2.2.2.2.2)
    (encode_strategy_name s2 x.1 x.2.1 x.2.2.1 x.2.2.2.1 x.2.2.2.2.1
      x.2.2.2.2.2)
  rw [heq] at h1
  have h3 : headChar s1 = headChar s2 :=
    Option.some_injective _ (h1.symm.trans h2)
  cases s1 <;> cases s2 <;> simp [headChar] at h3 <;> exact hne rfl

/-- Witness for `encoder_keys_deterministic_and_disjoint`: the basic and
naive encoders give different keys on the same concrete board geometry. -/
theorem encoder_keys_deterministic_and_disjoint_witness :
    ((1, [((500 : ℤ), (500 : ℤ))], ((600 : ℤ), (500 : ℤ)), (1000 : ℤ),
        (1000 : ℤ), (100 : ℤ)) =
      (1, [((500 : ℤ), (500 : ℤ))], ((600 : ℤ), (500 : ℤ)), (1000 : ℤ),
        (1000 : ℤ), (100 : ℤ))) ∧
    Strategy.basic ≠ Strategy.naive ∧
    get_state_str (encode .basic 1 [((500 : ℤ), (500 : ℤ))]
        ((600 : ℤ), (500 : ℤ)) 1000 1000 100) ≠
      get_state_str (encode .naive 1 [((500 : ℤ), (500 : ℤ))]
        ((600 : ℤ), (500 : ℤ)) 1000 1000 100) :=
  ⟨rfl, by decide,
    (encoder_keys_deterministic_and_disjoint .basic .naive
      (1, [((500 : ℤ), (500 : ℤ))], ((600 : ℤ), (500 : ℤ)), 1000, 1000, 100)
      (1, [((500 : ℤ), (500 : ℤ))], ((600 : ℤ), (500 : ℤ)), 1000, 1000, 100)
      rfl (by decide)).2⟩

/-- `Agent.load_qvalues`, abstracted over the file system (`os.path.exists` +
file read as one partial map from paths to contents) and the JSON parser
(`json.load`, which raises on malformed input, modelled as `Except`).  A
missing file returns the empty table with the diagnostic notice; an existing
file is parsed, propagating the parser's failure.  The returned string models
the `print` diagnostic. -/
def load_qvalues (fs : String → Option String)
    (parseJson : String → Except String QTable) (path : String) :
    Except String (QTable × String) :=
  match fs path with
  | none => Except.ok ([], "No qvalues file found, creating new one")
  | some content =>
    match parseJson content with
    | Except.ok qvalues => Except.ok (qvalues, "Qvalues loaded from " ++ path)
    | Except.error e => Except.error e

/-- C9: loading from a missing path is not an error — it yields the empty
table plus a diagnostic notice — whereas an existing path whose content fails
to parse propagates the parse error to the caller and is never coerced to an
empty table. -/
theorem load_qvalues_missing_vs_malformed (fs : String → Option String)
    (parseJson : String → Except String QTable) (path : String) :
    (fs path = none →
      load_qvalues fs parseJson path =
        Except.ok ([], "No qvalues file found, creating new one")) ∧
    (∀ c e, fs path = some c → parseJson c = Except.error e →
      load_qvalues fs parseJson path = Except.error e) ∧
    (∀ c qvalues, fs path = some c → parseJson c = Except.ok qvalues →
      load_qvalues fs parseJson path =
        Except.ok (qvalues, "Qvalues loaded from " ++ path)) := by
  refine ⟨fun h => ?_, fun c e h1 h2 => ?_, fun c qvalues h1 h2 => ?_⟩
  · simp [load_qvalues, h]
  · simp [load_qvalues, h1, h2]
  · simp [load_qvalues, h1, h2]

/-- Witness for `load_qvalues_missing_vs_malformed`: an empty file system
yields the empty table with the notice; a file system holding garbage that
the parser rejects propagates the error. -/
theorem load_qvalues_missing_vs_malformed_witness :
    ((fun _ : String => (none : Option String)) "basic/qvalues.json" = none) ∧
    load_qvalues (fun _ => none) (fun _ => Except.error "bad json")
      "basic/qvalues.json" =
      Except.ok ([], "No qvalues file found, creating new one") ∧
    ((fun _ : String => some "garbage") "basic/qvalues.json" = some "garbage") ∧
    ((fun _ : String => (Except.error "bad json" : Except String QTable))
      "garbage" = Except.error "bad json") ∧
    load_qvalues (fun _ => some "garbage") (fun _ => Except.error "bad json")
      "basic/qvalues.json" = Except.error "bad json" :=
  ⟨rfl,
    (load_qvalues_missing_vs_malformed (fun _ => none)
      (fun _ => Except.error "bad json") "basic/qvalues.json").1 rfl,
    rfl, rfl,
    (load_qvalues_missing_vs_malformed (fun _ => some "garbage")
      (fun _ => Except.error "bad json") "basic/qvalues.json").2.1
      "garbage" "bad json" rfl rfl⟩

end Snake
